import Mathlib

/-!
# Candidate Deduplication & Concurrent Bulk Ingestion Engine: shallow embedding

This file embeds the core of the `server-ats` repository in Lean 4:
identity normalization, the dedup-key builder, the in-process exclusion
lock (`withDedupLock`), the existing-record finder, the storage/insert
error classifiers, the critical section of `saveCandidateFromFile`, and
the bounded-concurrency dispatcher (`processFilesWithConcurrency`),
together with transition-system models of their concurrent executions.
-/

/-- JS `String.prototype.toLowerCase`, modelled characterwise. -/
def lowerChars (s : String) : String :=
  String.mk (s.toList.map Char.toLower)

/-- JS `String.prototype.trim`: strip leading and trailing whitespace. -/
def trimChars (s : String) : String :=
  String.mk
    (((s.toList.dropWhile Char.isWhitespace).reverse.dropWhile
      Char.isWhitespace).reverse)

/-- Embeds `normalizeEmail` (src/server/ats/candidate-dedup.js, lines 14-21):
null or empty input yields null; otherwise trim and lowercase, empty result
yields null. -/
def normalizeEmail (value : Option String) : Option String :=
  match value with
  | none => none
  | some v =>
    if v = "" then none
    else
      let normalized := lowerChars (trimChars v)
      if normalized = "" then none else some normalized

/-- Embeds `normalizePhone` (src/server/ats/candidate-dedup.js, lines 23-42):
strip non-digits; empty digit string yields null; 10 digits get a `+1`
country code; 11 digits starting with `1` keep the digits after a `+`;
any other count also gets a bare `+`. -/
def normalizePhone (value : Option String) : Option String :=
  match value with
  | none => none
  | some v =>
    if v = "" then none
    else
      let digits := String.mk (v.toList.filter Char.isDigit)
      if digits = "" then none
      else if digits.length = 10 then some ("+1" ++ digits)
      else if digits.length = 11 && digits.startsWith "1" then some ("+" ++ digits)
      else some ("+" ++ digits)

/-- Embeds `buildDedupKeys` (src/server/ats/candidate-dedup.js, lines 91-95):
the non-null identity facts become `email:`/`phone:`/`hash:` keys,
filtered and sorted. -/
def buildDedupKeys (email phone resumeHash : Option String) : List String :=
  ([email.map (fun e => "email:" ++ e),
    phone.map (fun p => "phone:" ++ p),
    resumeHash.map (fun h => "hash:" ++ h)].filterMap id).mergeSort (fun a b => a ≤ b)

/-- The `/upload` endpoint (src/unnamed/part_000, lines 217-220) builds its
dedup keys from email and phone only; no `resumeHash` field is passed. -/
def uploadRouteDedupKeys (email phone : Option String) : List String :=
  buildDedupKeys email phone none

/-- One `inFlightDedupKeys.add(key)` (JS `Set.add`): append if absent. -/
def addKey (held : List String) (k : String) : List String :=
  if held.contains k then held else held ++ [k]

/-- `keys.forEach((key) => inFlightDedupKeys.add(key))`. -/
def addAll (held : List String) (keys : List String) : List String :=
  keys.foldl addKey held

/-- `keys.forEach((key) => inFlightDedupKeys.delete(key))` (JS `Set.delete`). -/
def removeAll (held : List String) (keys : List String) : List String :=
  keys.foldl (fun h k => h.filter (fun x => x ≠ k)) held

/-- `key.split(':')[0]`: the identity dimension of a dedup key. -/
def matchByOfKey (k : String) : String :=
  (k.splitOn ":").headD ""

/-- Result of one `withDedupLock` call: either the duplicate-in-flight
rejection thrown at acquire time (with its `matchBy` detail), or the
operation's own result (value or thrown error) propagated unchanged. -/
inductive DedupOutcome (ε α : Type) where
  | dupInFlight (matchBy : String)
  | opResult (r : Except ε α)
  deriving Repr

/-- Embeds `withDedupLock(keys, fn)` (src/server/ats/candidate-dedup.js,
lines 97-113) as a function of the current held-key set: the check loop
throws `DuplicateCandidateError` at the first key already held (state
unchanged); otherwise all keys are marked held, `fn` runs, and the
`finally` block releases every key before the call returns.  `fn` is the
operation's result: `Except.error` models a thrown operation. -/
def withDedupLock (held : List String) (keys : List String)
    (fn : Except ε α) : List String × DedupOutcome ε α :=
  match keys.find? (fun k => held.contains k) with
  | some k => (held, .dupInFlight (matchByOfKey k))
  | none =>
    let held1 := addAll held keys
    let held2 := removeAll held1 keys
    (held2, .opResult fn)

/-- Phase of one ingestion attempt with respect to the exclusion lock:
not yet at the lock, inside the critical section (its operation running,
possibly suspended at I/O), finished (lock released), or rejected at the
acquire check as a duplicate-in-flight. -/
inductive LockPhase where
  | start
  | running
  | done
  | rejected
  deriving Repr, DecidableEq

/-- Global lock state: the `inFlightDedupKeys` set plus the phase of every
(potential) attempt.  Attempts are indexed by `Nat`; `keys i` is attempt
`i`'s dedup-key list, fixed before it reaches the lock. -/
structure LockState where
  held : List String
  phase : Nat → LockPhase

/-- The check loop of `withDedupLock` observes a collision exactly when
some key of the attempt is in the held set. -/
def hasCollision (held : List String) (keys : List String) : Bool :=
  keys.any (fun k => held.contains k)

/-- Interleaving semantics of concurrent `withDedupLock` calls
(src/server/ats/candidate-dedup.js, lines 97-113).  The acquire
check-and-mark is synchronous JavaScript with no `await` between the
check loop and the `add` loop, so it is one atomic step; likewise the
`finally` release.  The operation between them is a separate phase, so
other attempts interleave freely while one is running. -/
inductive LockStep (keys : Nat → List String) : LockState → LockState → Prop where
  | acquireOk (s : LockState) (i : Nat)
      (hp : s.phase i = .start)
      (hfree : hasCollision s.held (keys i) = false) :
      LockStep keys s ⟨addAll s.held (keys i), Function.update s.phase i .running⟩
  | acquireFail (s : LockState) (i : Nat)
      (hp : s.phase i = .start)
      (hcol : hasCollision s.held (keys i) = true) :
      LockStep keys s ⟨s.held, Function.update s.phase i .rejected⟩
  | release (s : LockState) (i : Nat)
      (hp : s.phase i = .running) :
      LockStep keys s ⟨removeAll s.held (keys i), Function.update s.phase i .done⟩

/-- Initial state: no key held, every attempt before the lock. -/
def lockInit : LockState :=
  ⟨[], fun _ => .start⟩

/-- Invariant of the lock system: every running attempt's keys are all in
the held set, and two distinct running attempts never share a key. -/
def LockInv (keys : Nat → List String) (s : LockState) : Prop :=
  (∀ i, s.phase i = .running → ∀ k ∈ keys i, k ∈ s.held) ∧
  (∀ i j, i ≠ j → s.phase i = .running → s.phase j = .running →
    ∀ k, k ∈ keys i → k ∉ keys j)

/-- A persisted candidate record; only the store-assigned identifier
matters to the claims. -/
structure Candidate where
  id : Nat
  deriving Repr, DecidableEq

/-- The persistent store as seen through the three duplicate-check
queries used by `findExistingCandidate`: each query takes the normalized
value and yields the most recent matching record, no record, or a store
error (Supabase `error` field). -/
structure Store where
  byEmail : String → Except String (Option Candidate)
  byPhone : String → Except String (Option Candidate)
  byResumeUrl : String → Except String (Option Candidate)

/-- Embeds `queryCandidateByEmail` (src/server/ats/candidate-dedup.js,
lines 115-132): null input short-circuits to null without querying; a
store error is rethrown wrapped in a message. -/
def queryCandidateByEmail (store : Store) (email : Option String) :
    Except String (Option Candidate) :=
  match email with
  | none => .ok none
  | some e =>
    match store.byEmail e with
    | .error m => .error ("Failed duplicate check by email: " ++ m)
    | .ok r => .ok r

/-- Embeds `queryCandidateByPhone` (src/server/ats/candidate-dedup.js,
lines 134-151). -/
def queryCandidateByPhone (store : Store) (phone : Option String) :
    Except String (Option Candidate) :=
  match phone with
  | none => .ok none
  | some p =>
    match store.byPhone p with
    | .error m => .error ("Failed duplicate check by phone: " ++ m)
    | .ok r => .ok r

/-- Embeds `queryCandidateByResumeUrl` (src/server/ats/candidate-dedup.js,
lines 153-170). -/
def queryCandidateByResumeUrl (store : Store) (resumeUrl : Option String) :
    Except String (Option Candidate) :=
  match resumeUrl with
  | none => .ok none
  | some u =>
    match store.byResumeUrl u with
    | .error m => .error ("Failed duplicate check by resume URL: " ++ m)
    | .ok r => .ok r

/-- Embeds `findExistingCandidate` (src/server/ats/candidate-dedup.js,
lines 172-189): email first, then phone, then resume URL; the first hit
is returned tagged with the dimension that matched; no hit on all three
is `none`, not an error. -/
def findExistingCandidate (store : Store)
    (email phone resumeUrl : Option String) :
    Except String (Option (Candidate × String)) :=
  match queryCandidateByEmail store email with
  | .error m => .error m
  | .ok (some c) => .ok (some (c, "email"))
  | .ok none =>
    match queryCandidateByPhone store phone with
    | .error m => .error m
    | .ok (some c) => .ok (some (c, "phone"))
    | .ok none =>
      match queryCandidateByResumeUrl store resumeUrl with
      | .error m => .error m
      | .ok (some c) => .ok (some (c, "resume"))
      | .ok none => .ok none

/-- A blob-store error as consumed by `isStorageAlreadyExistsError`:
`statusCode` is the numeric value of the error's status code after the
`Number(...)` coercion (`none` when absent or non-numeric), `message`
the error message. -/
structure StorageError where
  statusCode : Option Int
  message : String
  deriving Repr, DecidableEq

/-- JS `haystack.includes(needle)` on strings. -/
def strIncludes (haystack needle : String) : Bool :=
  (List.range (haystack.length + 1)).any
    (fun i => needle.toList.isPrefixOf (haystack.toList.drop i))

/-- Embeds `isStorageAlreadyExistsError` (src/server/ats/candidate-dedup.js,
lines 191-199): null error is not a conflict; otherwise status code 409 or
a lowercased message containing "already exists". -/
def isStorageAlreadyExistsError (error : Option StorageError) : Bool :=
  match error with
  | none => false
  | some e =>
    e.statusCode == some 409 || strIncludes (lowerChars e.message) "already exists"

/-- Embeds `isUniqueViolation` (src/server/ats/candidate-dedup.js, lines
201-203): `error?.code === '23505'`; the argument is the insert error's
`code` field (`none` when absent). -/
def isUniqueViolation (code : Option String) : Bool :=
  code == some "23505"

/-- Result of the store's `insert` call in `saveCandidateFromFile`:
either the inserted row or an error with its `code` and `message`. -/
inductive InsertResult where
  | inserted (c : Candidate)
  | failed (code : Option String) (message : String)
  deriving Repr, DecidableEq

/-- Outcome of one ingestion attempt's critical section: the saved record,
a `DuplicateCandidateError` with its matched dimension and (when found)
the winning record, or a generic thrown error. -/
inductive AttemptOutcome where
  | success (c : Candidate)
  | duplicate (matchBy : String) (winner : Option Candidate)
  | failure (msg : String)
  deriving Repr, DecidableEq

/-- The insert step of `saveCandidateFromFile` (src/unnamed/part_001,
lines 195-217): a unique violation (`code '23505'`) re-runs
`findExistingCandidate` (on the store as seen at that instant, `s3`) and
throws `DuplicateCandidateError` with the winner's dimension, falling
back to `'constraint'` when no winner is found; any other insert error is
thrown as a generic failure. -/
def insertStep (s3 : Store) (email phone resumeUrl : Option String)
    (insertResult : InsertResult) : AttemptOutcome :=
  match insertResult with
  | .inserted c => .success c
  | .failed code msg =>
    if isUniqueViolation code then
      match findExistingCandidate s3 email phone resumeUrl with
      | .error m => .failure m
      | .ok (some (c, dim)) => .duplicate dim (some c)
      | .ok none => .duplicate "constraint" none
    else .failure ("Failed to save candidate in database: " ++ msg)

/-- The critical section of `saveCandidateFromFile` (src/unnamed/part_001,
lines 153-220), run under `withDedupLock`: speculative duplicate
pre-check, blob upload with the already-exists conflict treated as a
no-op (followed by the defensive re-check of the finder), then the
insert with its unique-violation handler.  The store is an external
collaborator whose contents may change between suspension points, so
each of the three `findExistingCandidate` calls sees its own snapshot
(`s1`, `s2`, `s3`); `storageError` is the blob store's response to the
upload and `insertResult` the store's response to the insert. -/
def saveCandidateCritical (s1 s2 s3 : Store)
    (email phone resumeUrl : Option String)
    (storageError : Option StorageError)
    (insertResult : InsertResult) : AttemptOutcome :=
  match findExistingCandidate s1 email phone resumeUrl with
  | .error m => .failure m
  | .ok (some (c, dim)) => .duplicate dim (some c)
  | .ok none =>
    match storageError with
    | some e =>
      if isStorageAlreadyExistsError (some e) then
        match findExistingCandidate s2 email phone resumeUrl with
        | .error m => .failure m
        | .ok (some (c, dim)) => .duplicate dim (some c)
        | .ok none => insertStep s3 email phone resumeUrl insertResult
      else .failure ("Failed to upload resume to Supabase Storage: " ++ e.message)
    | none => insertStep s3 email phone resumeUrl insertResult

/-- `workerCount` in `processFilesWithConcurrency` (src/unnamed/part_001,
line 78): `Math.max(1, Math.min(concurrency, files.length))`. -/
def workerCount (concurrency n : Nat) : Nat :=
  max 1 (min concurrency n)

/-- Phase of one dispatcher worker: about to claim the next index from the
shared cursor, awaiting the handler for a claimed index, or finished. -/
inductive WorkerPhase where
  | idle
  | working (i : Nat)
  | done
  deriving Repr, DecidableEq

/-- State of one `processFilesWithConcurrency` run: the shared cursor
`nextIndex`, the positionally-indexed `results` array (`none` = slot not
yet written), and every worker's phase. -/
structure DispatchState (β : Type) where
  nextIndex : Nat
  results : List (Option β)
  workers : List WorkerPhase

/-- Interleaving semantics of `processFilesWithConcurrency`'s workers
(src/unnamed/part_001, lines 75-95).  `currentIndex = nextIndex;
nextIndex += 1` is synchronous with no `await` in between, so a claim is
one atomic step; the worker then either stops (index past the end) or
suspends at `await handler(...)`, writing the handler's result into its
slot when it resumes. -/
inductive DispatchStep (files : List α) (handler : α → β) :
    DispatchState β → DispatchState β → Prop where
  | claim (s : DispatchState β) (j : Nat)
      (hw : s.workers[j]? = some WorkerPhase.idle) :
      DispatchStep files handler s
        ⟨s.nextIndex + 1, s.results,
         s.workers.set j
           (if s.nextIndex < files.length then WorkerPhase.working s.nextIndex
            else WorkerPhase.done)⟩
  | finish (s : DispatchState β) (j i : Nat) (a : α)
      (hw : s.workers[j]? = some (WorkerPhase.working i))
      (hf : files[i]? = some a) :
      DispatchStep files handler s
        ⟨s.nextIndex, s.results.set i (some (handler a)), s.workers.set j .idle⟩

/-- Initial dispatcher state: cursor at 0, all result slots empty, and
`workerCount concurrency files.length` idle workers. -/
def dispatchInit (n wc : Nat) : DispatchState β :=
  ⟨0, List.replicate n none, List.replicate wc .idle⟩

/-- Every worker has returned (its `Promise.all` branch resolved). -/
def allWorkersDone (s : DispatchState β) : Prop :=
  ∀ (j : Nat) (w : WorkerPhase), s.workers[j]? = some w → w = WorkerPhase.done

/-- Invariant of the dispatcher run. -/
def DispatchInv (files : List α) (handler : α → β) (wc : Nat)
    (s : DispatchState β) : Prop :=
  s.results.length = files.length ∧
  s.workers.length = wc ∧
  (∀ (i : Nat) (b : β), s.results[i]? = some (some b) →
    ∃ a, files[i]? = some a ∧ b = handler a) ∧
  (∀ i : Nat, i < files.length → i < s.nextIndex →
    s.results[i]? ≠ some none ∨ ∃ j : Nat, s.workers[j]? = some (WorkerPhase.working i)) ∧
  (∀ j : Nat, s.workers[j]? = some WorkerPhase.done → files.length < s.nextIndex)

/-- The aggregate response of the bulk route `/upload-resumes`
(src/unnamed/part_000, lines 689-715): counts over the per-file outcome
list (each outcome's `ok` flag as produced by the route handler) plus
`totalFiles` and `concurrencyUsed`, the latter taken from
`config.bulkUploadConcurrency`. -/
structure BulkResponse where
  totalFiles : Nat
  concurrencyUsed : Nat
  uploadedCount : Nat
  failedCount : Nat
  deriving Repr, DecidableEq

/-- The route handler wraps each attempt outcome into `{ ok: ... }`:
`true` exactly on success (src/unnamed/part_000, lines 669-686). -/
def outcomeOk (o : AttemptOutcome) : Bool :=
  match o with
  | .success _ => true
  | _ => false

/-- Embeds the response assembly of `/upload-resumes`
(src/unnamed/part_000, lines 689-715) over the outcome list returned by
`processFilesWithConcurrency(files, config.bulkUploadConcurrency, ...)`:
`concurrencyUsed` is reported as `config.bulkUploadConcurrency` itself. -/
def bulkUploadResponse (totalFiles bulkUploadConcurrency : Nat)
    (outcomes : List AttemptOutcome) : BulkResponse :=
  { totalFiles := totalFiles
    concurrencyUsed := bulkUploadConcurrency
    uploadedCount := (outcomes.filter (fun o => outcomeOk o)).length
    failedCount := (outcomes.filter (fun o => !outcomeOk o)).length }

theorem mem_addKey {l : List String} {k x : String} :
    x ∈ addKey l k ↔ x ∈ l ∨ x = k := by
  unfold addKey
  by_cases h : l.contains k = true
  · rw [if_pos h]
    have hk : k ∈ l := List.elem_iff.mp h
    constructor
    · exact fun hx => Or.inl hx
    · rintro (hx | rfl)
      · exact hx
      · exact hk
  · rw [if_neg h]
    simp [List.mem_append]

theorem mem_addAll {ks : List String} :
    ∀ {l : List String} {x : String}, x ∈ addAll l ks ↔ x ∈ l ∨ x ∈ ks := by
  induction ks with
  | nil => intro l x; simp [addAll]
  | cons k ks ih =>
    intro l x
    show x ∈ addAll (addKey l k) ks ↔ _
    rw [ih, mem_addKey]
    simp [List.mem_cons]
    tauto

theorem addAll_eq_append (ks : List String) :
    ∀ l : List String, ∃ extra : List String,
      addAll l ks = l ++ extra ∧ ∀ x ∈ extra, x ∈ ks := by
  induction ks with
  | nil => intro l; exact ⟨[], by simp [addAll], by simp⟩
  | cons k ks ih =>
    intro l
    obtain ⟨extra, heq, hsub⟩ := ih (addKey l k)
    by_cases h : l.contains k = true
    · have hak : addKey l k = l := by unfold addKey; rw [if_pos h]
      refine ⟨extra, ?_, fun x hx => List.mem_cons_of_mem _ (hsub x hx)⟩
      show addAll (addKey l k) ks = _
      rw [heq, hak]
    · have hak : addKey l k = l ++ [k] := by unfold addKey; rw [if_neg h]
      refine ⟨k :: extra, ?_, ?_⟩
      · show addAll (addKey l k) ks = _
        rw [heq, hak]
        simp
      · intro x hx
        rcases List.mem_cons.mp hx with rfl | hx
        · exact List.mem_cons_self _ _
        · exact List.mem_cons_of_mem _ (hsub x hx)

theorem removeAll_eq_filter {ks : List String} :
    ∀ l : List String,
      removeAll l ks = l.filter (fun x => decide (x ∉ ks)) := by
  induction ks with
  | nil =>
    intro l
    show l = _
    rw [List.filter_eq_self.mpr]
    intro x _
    simp
  | cons k ks ih =>
    intro l
    show removeAll (l.filter fun x => x ≠ k) ks = _
    rw [ih, List.filter_filter]
    apply List.filter_congr
    intro x _
    by_cases h1 : x = k
    · subst h1
      simp [List.mem_cons]
    · by_cases h2 : x ∈ ks <;> simp [h1, h2, List.mem_cons]

theorem mem_removeAll {l ks : List String} {x : String} :
    x ∈ removeAll l ks ↔ x ∈ l ∧ x ∉ ks := by
  rw [removeAll_eq_filter, List.mem_filter]
  simp

theorem removeAll_addAll {l ks : List String}
    (h : ∀ k ∈ ks, k ∉ l) : removeAll (addAll l ks) ks = l := by
  obtain ⟨extra, heq, hsub⟩ := addAll_eq_append ks l
  rw [heq, removeAll_eq_filter, List.filter_append,
    List.filter_eq_self.mpr, List.filter_eq_nil_iff.mpr, List.append_nil]
  · intro x hx
    simpa using hsub x hx
  · intro x hx
    simpa using fun hxk => h x hxk hx

/-- C2: a `withDedupLock` call with a key already held by another
in-flight attempt fails immediately with a duplicate condition naming the
collided dimension (the prefix of the colliding key), does not run the
operation (its result is independent of the operation), and leaves the
held-key set unchanged. -/
theorem claim_C2 {ε α : Type} (held keys : List String) (fn : Except ε α)
    (h : ∃ k ∈ keys, held.contains k = true) :
    ∃ k ∈ keys, held.contains k = true ∧
      withDedupLock held keys fn = (held, .dupInFlight (matchByOfKey k)) ∧
      ∀ fn' : Except ε α,
        withDedupLock held keys fn' = withDedupLock held keys fn := by
  have hsome : (keys.find? (fun k => held.contains k)).isSome := by
    rw [List.find?_isSome]
    obtain ⟨k, hk, hc⟩ := h
    exact ⟨k, hk, hc⟩
  obtain ⟨k, hk⟩ := Option.isSome_iff_exists.mp hsome
  refine ⟨k, List.mem_of_find?_eq_some hk, List.find?_some hk, ?_, ?_⟩
  · unfold withDedupLock
    rw [hk]
  · intro fn'
    unfold withDedupLock
    rw [hk]

theorem claim_C2_witness :
    ∃ k ∈ ["email:a@b.c", "phone:+15551234567"],
      (["email:a@b.c"] : List String).contains k = true ∧
      withDedupLock ["email:a@b.c"] ["email:a@b.c", "phone:+15551234567"]
        (Except.ok (0 : Nat) : Except Unit Nat) =
        (["email:a@b.c"], .dupInFlight (matchByOfKey k)) ∧
      ∀ fn' : Except Unit Nat,
        withDedupLock ["email:a@b.c"] ["email:a@b.c", "phone:+15551234567"] fn' =
          withDedupLock ["email:a@b.c"] ["email:a@b.c", "phone:+15551234567"]
            (Except.ok (0 : Nat) : Except Unit Nat) :=
  claim_C2 ["email:a@b.c"] ["email:a@b.c", "phone:+15551234567"]
    (Except.ok (0 : Nat)) ⟨"email:a@b.c", by decide, by decide⟩

/-- C3: a `withDedupLock` call whose keys are all free marks every key
held, runs the operation (its result — success or thrown error — is
propagated as the call's outcome), and releases every key before
returning, so the held-key set after the call equals the set before it
and a subsequent attempt for the same keys is never rejected because of a
stale hold. -/
theorem claim_C3 {ε α : Type} (held keys : List String) (fn : Except ε α)
    (h : ∀ k ∈ keys, held.contains k = false) :
    withDedupLock held keys fn = (held, .opResult fn) ∧
    (∀ k ∈ keys, (addAll held keys).contains k = true) ∧
    ∀ fn' : Except ε α,
      withDedupLock (withDedupLock held keys fn).1 keys fn' =
        (held, .opResult fn') := by
  have hnotmem : ∀ k ∈ keys, k ∉ held := by
    intro k hk hmem
    have hc : held.contains k = true := List.elem_iff.mpr hmem
    rw [h k hk] at hc
    exact Bool.false_ne_true hc
  have hnone : keys.find? (fun k => held.contains k) = none := by
    rw [List.find?_eq_none]
    intro k hk
    simp only [h k hk]
    exact Bool.false_ne_true
  have hmain : ∀ g : Except ε α,
      withDedupLock held keys g = (held, .opResult g) := by
    intro g
    unfold withDedupLock
    rw [hnone]
    simp only
    rw [removeAll_addAll hnotmem]
  refine ⟨hmain fn, ?_, ?_⟩
  · intro k hk
    exact List.elem_iff.mpr (mem_addAll.mpr (Or.inr hk))
  · intro fn'
    rw [hmain fn]
    exact hmain fn'

theorem claim_C3_witness :
    (∀ k ∈ (["email:a@b.c"] : List String),
      (["phone:+15551234567"] : List String).contains k = false) ∧
    withDedupLock ["phone:+15551234567"] ["email:a@b.c"]
      (Except.error () : Except Unit Nat) =
      (["phone:+15551234567"], .opResult (Except.error ())) :=
  ⟨by decide,
    (claim_C3 ["phone:+15551234567"] ["email:a@b.c"]
      (Except.error () : Except Unit Nat) (by decide)).1⟩

/-- C9: `normalizePhone` strips non-digits; no digits left gives null,
exactly 10 digits give `+1` then the digits, 11 digits starting with `1`
give `+` then the digits, and any other nonzero, non-10 digit count also
gives `+` then the digits; in particular `"(555) 123-4567"` and
`"555.123.4567"` both normalize to `"+15551234567"`. -/
theorem claim_C9 :
    (∀ s : String,
      (String.mk (s.toList.filter Char.isDigit) = "" →
        normalizePhone (some s) = none) ∧
      ((String.mk (s.toList.filter Char.isDigit)).length = 10 →
        normalizePhone (some s) =
          some ("+1" ++ String.mk (s.toList.filter Char.isDigit))) ∧
      ((String.mk (s.toList.filter Char.isDigit)).length = 11 ∧
          (String.mk (s.toList.filter Char.isDigit)).startsWith "1" = true →
        normalizePhone (some s) =
          some ("+" ++ String.mk (s.toList.filter Char.isDigit))) ∧
      (String.mk (s.toList.filter Char.isDigit) ≠ "" ∧
          (String.mk (s.toList.filter Char.isDigit)).length ≠ 10 →
        normalizePhone (some s) =
          some ("+" ++ String.mk (s.toList.filter Char.isDigit)))) ∧
    normalizePhone (some "(555) 123-4567") = some "+15551234567" ∧
    normalizePhone (some "555.123.4567") = some "+15551234567" := by
  refine ⟨?_, rfl, rfl⟩
  intro s
  by_cases hs : s = ""
  · subst hs
    exact ⟨fun _ => rfl, fun h => absurd h (by decide),
      fun h => absurd h.1 (by decide), fun h => absurd rfl h.1⟩
  · have h0 : normalizePhone (some s) =
        (if s = "" then none
         else if String.mk (s.toList.filter Char.isDigit) = "" then none
         else if (String.mk (s.toList.filter Char.isDigit)).length = 10 then
           some ("+1" ++ String.mk (s.toList.filter Char.isDigit))
         else if (String.mk (s.toList.filter Char.isDigit)).length = 11 &&
             (String.mk (s.toList.filter Char.isDigit)).startsWith "1" then
           some ("+" ++ String.mk (s.toList.filter Char.isDigit))
         else some ("+" ++ String.mk (s.toList.filter Char.isDigit))) := rfl
    have hunfold : normalizePhone (some s) =
        (if String.mk (s.toList.filter Char.isDigit) = "" then none
         else if (String.mk (s.toList.filter Char.isDigit)).length = 10 then
           some ("+1" ++ String.mk (s.toList.filter Char.isDigit))
         else if (String.mk (s.toList.filter Char.isDigit)).length = 11 &&
             (String.mk (s.toList.filter Char.isDigit)).startsWith "1" then
           some ("+" ++ String.mk (s.toList.filter Char.isDigit))
         else some ("+" ++ String.mk (s.toList.filter Char.isDigit))) := by
      rw [h0, if_neg hs]
    refine ⟨?_, ?_, ?_, ?_⟩
    · intro h
      rw [hunfold, if_pos h]
    · intro h10
      have hne : String.mk (s.toList.filter Char.isDigit) ≠ "" := by
        intro he
        rw [he] at h10
        exact absurd h10 (by decide)
      rw [hunfold, if_neg hne, if_pos h10]
    · rintro ⟨h11, _⟩
      have hne : String.mk (s.toList.filter Char.isDigit) ≠ "" := by
        intro he
        rw [he] at h11
        exact absurd h11 (by decide)
      have h10 : ¬ (String.mk (s.toList.filter Char.isDigit)).length = 10 := by
        rw [h11]
        decide
      rw [hunfold, if_neg hne, if_neg h10]
      split <;> rfl
    · rintro ⟨hne, h10⟩
      rw [hunfold, if_neg hne, if_neg h10]
      split <;> rfl

theorem claim_C9_witness :
    normalizePhone (some "555 123 4567 890") = some "+5551234567890" :=
  (claim_C9.1 "555 123 4567 890").2.2.2 (by decide)

/-- C10: an empty dedup-key list applies no mutual exclusion —
`withDedupLock([], operation)` always runs the operation and never raises
a duplicate-in-flight condition — and the `/upload` endpoint's key
builder (email and phone only, no content hash) produces the empty list
when neither an email nor a phone is recognized. -/
theorem claim_C10 {ε α : Type} :
    ∀ (held : List String) (fn : Except ε α),
      uploadRouteDedupKeys none none = [] ∧
      uploadRouteDedupKeys (normalizeEmail none) (normalizePhone none) = [] ∧
      withDedupLock held [] fn = (held, .opResult fn) := by
  intro held fn
  refine ⟨?_, ?_, rfl⟩
  · simp [uploadRouteDedupKeys, buildDedupKeys]
  · simp [uploadRouteDedupKeys, buildDedupKeys, normalizeEmail, normalizePhone]

/-- C8: `findExistingCandidate` checks email first, then phone, then
resume URL, tagging the first hit with its dimension; null inputs are
skipped without consulting the corresponding store query; no match on all
three yields `none`, not an error. -/
theorem claim_C8 (store : Store) (email phone resumeUrl : Option String) :
    (∀ e c, email = some e → store.byEmail e = .ok (some c) →
      findExistingCandidate store email phone resumeUrl =
        .ok (some (c, "email"))) ∧
    (∀ p c, queryCandidateByEmail store email = .ok none → phone = some p →
      store.byPhone p = .ok (some c) →
      findExistingCandidate store email phone resumeUrl =
        .ok (some (c, "phone"))) ∧
    (∀ u c, queryCandidateByEmail store email = .ok none →
      queryCandidateByPhone store phone = .ok none → resumeUrl = some u →
      store.byResumeUrl u = .ok (some c) →
      findExistingCandidate store email phone resumeUrl =
        .ok (some (c, "resume"))) ∧
    (queryCandidateByEmail store email = .ok none →
      queryCandidateByPhone store phone = .ok none →
      queryCandidateByResumeUrl store resumeUrl = .ok none →
      findExistingCandidate store email phone resumeUrl = .ok none) ∧
    (∀ store2 : Store, email = none → store2.byPhone = store.byPhone →
      store2.byResumeUrl = store.byResumeUrl →
      findExistingCandidate store2 email phone resumeUrl =
        findExistingCandidate store email phone resumeUrl) ∧
    (∀ store2 : Store, phone = none → store2.byEmail = store.byEmail →
      store2.byResumeUrl = store.byResumeUrl →
      findExistingCandidate store2 email phone resumeUrl =
        findExistingCandidate store email phone resumeUrl) ∧
    (∀ store2 : Store, resumeUrl = none → store2.byEmail = store.byEmail →
      store2.byPhone = store.byPhone →
      findExistingCandidate store2 email phone resumeUrl =
        findExistingCandidate store email phone resumeUrl) := by
  refine ⟨?_, ?_, ?_, ?_, ?_, ?_, ?_⟩
  · intro e c he hbe
    subst he
    simp [findExistingCandidate, queryCandidateByEmail, hbe]
  · intro p c hqe hp hbp
    subst hp
    rw [findExistingCandidate, hqe]
    simp [queryCandidateByPhone, hbp]
  · intro u c hqe hqp hu hbu
    subst hu
    rw [findExistingCandidate, hqe]
    simp only [hqp]
    simp [queryCandidateByResumeUrl, hbu]
  · intro hqe hqp hqu
    rw [findExistingCandidate, hqe]
    simp only [hqp, hqu]
  · intro store2 he h2 h3
    subst he
    simp [findExistingCandidate, queryCandidateByEmail,
      queryCandidateByPhone, queryCandidateByResumeUrl, h2, h3]
  · intro store2 hp h2 h3
    subst hp
    simp [findExistingCandidate, queryCandidateByEmail,
      queryCandidateByPhone, queryCandidateByResumeUrl, h2, h3]
  · intro store2 hu h2 h3
    subst hu
    simp [findExistingCandidate, queryCandidateByEmail,
      queryCandidateByPhone, queryCandidateByResumeUrl, h2, h3]

theorem claim_C8_witness :
    findExistingCandidate
      ⟨fun _ => .ok (some ⟨7⟩), fun _ => .ok none, fun _ => .ok none⟩
      (some "a@b.c") (some "+15551234567") none =
      .ok (some (⟨7⟩, "email")) :=
  (claim_C8 ⟨fun _ => .ok (some ⟨7⟩), fun _ => .ok none, fun _ => .ok none⟩
    (some "a@b.c") (some "+15551234567") none).1 "a@b.c" ⟨7⟩ rfl rfl

/-- C6: when the candidate insert is rejected with the uniqueness
violation code `'23505'`, the pipeline re-runs the existing-record finder
(on the store as then visible) and raises a duplicate condition carrying
the winning record and its matched dimension; any insert failure with a
different code is surfaced as a fatal generic error, not a duplicate. -/
theorem claim_C6 (s1 s2 s3 : Store) (email phone resumeUrl : Option String)
    (h1 : findExistingCandidate s1 email phone resumeUrl = .ok none) :
    (∀ c dim m,
      findExistingCandidate s3 email phone resumeUrl = .ok (some (c, dim)) →
      saveCandidateCritical s1 s2 s3 email phone resumeUrl none
        (.failed (some "23505") m) = .duplicate dim (some c)) ∧
    (∀ code m, isUniqueViolation code = false →
      saveCandidateCritical s1 s2 s3 email phone resumeUrl none
        (.failed code m) =
        .failure ("Failed to save candidate in database: " ++ m)) ∧
    isUniqueViolation (some "23505") = true ∧
    (∀ code, isUniqueViolation code = true → code = some "23505") := by
  refine ⟨?_, ?_, rfl, ?_⟩
  · intro c dim m h3
    rw [saveCandidateCritical, h1]
    simp only
    rw [insertStep]
    simp only [isUniqueViolation]
    rw [if_pos (by rfl), h3]
  · intro code m hc
    rw [saveCandidateCritical, h1]
    simp only
    rw [insertStep, if_neg]
    rw [hc]
    exact Bool.false_ne_true
  · intro code hc
    exact beq_iff_eq.mp hc

theorem claim_C6_witness :
    findExistingCandidate
      ⟨fun _ => .ok none, fun _ => .ok none, fun _ => .ok none⟩
      (some "a@b.c") none none = .ok none ∧
    saveCandidateCritical
      ⟨fun _ => .ok none, fun _ => .ok none, fun _ => .ok none⟩
      ⟨fun _ => .ok none, fun _ => .ok none, fun _ => .ok none⟩
      ⟨fun _ => .ok (some ⟨9⟩), fun _ => .ok none, fun _ => .ok none⟩
      (some "a@b.c") none none none (.failed (some "23505") "dup") =
      .duplicate "email" (some ⟨9⟩) :=
  ⟨rfl,
    (claim_C6 ⟨fun _ => .ok none, fun _ => .ok none, fun _ => .ok none⟩
      ⟨fun _ => .ok none, fun _ => .ok none, fun _ => .ok none⟩
      ⟨fun _ => .ok (some ⟨9⟩), fun _ => .ok none, fun _ => .ok none⟩
      (some "a@b.c") none none rfl).1 ⟨9⟩ "email" "dup" rfl⟩

/-- C7: a blob-store error recognized as "object already exists" (status
code 409 or a message containing "already exists") is treated as a
successful no-op — after the defensive duplicate re-check finds nothing,
the attempt proceeds exactly as if the upload had succeeded — while any
other storage error is fatal to the attempt. -/
theorem claim_C7 (s1 s2 s3 : Store) (email phone resumeUrl : Option String)
    (err : StorageError) (ins : InsertResult)
    (h1 : findExistingCandidate s1 email phone resumeUrl = .ok none) :
    (isStorageAlreadyExistsError (some err) = true ↔
      err.statusCode = some 409 ∨
        strIncludes (lowerChars err.message) "already exists" = true) ∧
    (isStorageAlreadyExistsError (some err) = true →
      findExistingCandidate s2 email phone resumeUrl = .ok none →
      saveCandidateCritical s1 s2 s3 email phone resumeUrl (some err) ins =
        saveCandidateCritical s1 s2 s3 email phone resumeUrl none ins) ∧
    (isStorageAlreadyExistsError (some err) = false →
      saveCandidateCritical s1 s2 s3 email phone resumeUrl (some err) ins =
        .failure ("Failed to upload resume to Supabase Storage: " ++
          err.message)) := by
  refine ⟨?_, ?_, ?_⟩
  · rw [isStorageAlreadyExistsError]
    rw [Bool.or_eq_true]
    constructor
    · rintro (h | h)
      · exact Or.inl (beq_iff_eq.mp h)
      · exact Or.inr h
    · rintro (h | h)
      · exact Or.inl (beq_iff_eq.mpr h)
      · exact Or.inr h
  · intro hx h2
    rw [saveCandidateCritical, h1]
    simp only
    rw [if_pos hx, h2]
    rw [saveCandidateCritical, h1]
  · intro hx
    rw [saveCandidateCritical, h1]
    simp only
    rw [if_neg]
    rw [hx]
    exact Bool.false_ne_true

theorem claim_C7_witness :
    findExistingCandidate
      ⟨fun _ => .ok none, fun _ => .ok none, fun _ => .ok none⟩
      none none (some "https://x/uploads/h.pdf") = .ok none ∧
    isStorageAlreadyExistsError
      (some ⟨none, "The resource already exists"⟩) = true ∧
    saveCandidateCritical
      ⟨fun _ => .ok none, fun _ => .ok none, fun _ => .ok none⟩
      ⟨fun _ => .ok none, fun _ => .ok none, fun _ => .ok none⟩
      ⟨fun _ => .ok none, fun _ => .ok none, fun _ => .ok none⟩
      none none (some "https://x/uploads/h.pdf")
      (some ⟨none, "The resource already exists"⟩) (.inserted ⟨3⟩) =
      saveCandidateCritical
      ⟨fun _ => .ok none, fun _ => .ok none, fun _ => .ok none⟩
      ⟨fun _ => .ok none, fun _ => .ok none, fun _ => .ok none⟩
      ⟨fun _ => .ok none, fun _ => .ok none, fun _ => .ok none⟩
      none none (some "https://x/uploads/h.pdf") none (.inserted ⟨3⟩) :=
  ⟨rfl, by decide,
    (claim_C7 ⟨fun _ => .ok none, fun _ => .ok none, fun _ => .ok none⟩
      ⟨fun _ => .ok none, fun _ => .ok none, fun _ => .ok none⟩
      ⟨fun _ => .ok none, fun _ => .ok none, fun _ => .ok none⟩
      none none (some "https://x/uploads/h.pdf")
      ⟨none, "The resource already exists"⟩ (.inserted ⟨3⟩) rfl).2.1
      (by decide) rfl⟩

/-- C5 fails as stated: with one input file and the default bulk
concurrency of 8, the response reports `concurrencyUsed = 8` while the
worker count actually used is clamped to `max 1 (min 8 1) = 1`. -/
theorem claim_C5_counterexample :
    (bulkUploadResponse 1 8 [AttemptOutcome.success ⟨1⟩]).concurrencyUsed = 8 ∧
    workerCount 8 1 = 1 ∧
    (bulkUploadResponse 1 8 [AttemptOutcome.success ⟨1⟩]).concurrencyUsed ≠
      workerCount 8 1 := by
  refine ⟨rfl, rfl, ?_⟩
  decide

/-- C5 amended: the concurrency value reported in the aggregate result is
the configured bulk-upload concurrency limit as passed to the dispatcher,
before clamping; it coincides with the clamped worker count whenever the
configured limit is between 1 and the number of files. -/
theorem claim_C5 (n cfg : Nat) (outcomes : List AttemptOutcome) :
    (bulkUploadResponse n cfg outcomes).concurrencyUsed = cfg ∧
    (1 ≤ cfg → cfg ≤ n →
      (bulkUploadResponse n cfg outcomes).concurrencyUsed =
        workerCount cfg n) := by
  refine ⟨rfl, ?_⟩
  intro h1 h2
  show cfg = max 1 (min cfg n)
  omega

theorem claim_C5_witness :
    (bulkUploadResponse 4 2 []).concurrencyUsed = workerCount 2 4 :=
  (claim_C5 4 2 []).2 (by decide) (by decide)

theorem hasCollision_eq_false {held keys : List String} :
    hasCollision held keys = false ↔ ∀ k ∈ keys, k ∉ held := by
  unfold hasCollision
  rw [← Bool.not_eq_true, List.any_eq_true]
  push_neg
  constructor
  · intro h k hk hmem
    have hc : held.contains k = true := List.elem_iff.mpr hmem
    exact absurd hc (h k hk)
  · intro h k hk
    intro hc
    exact h k hk (List.elem_iff.mp hc)

theorem lockInv_step {keys : Nat → List String} {s t : LockState}
    (hst : LockStep keys s t) (hinv : LockInv keys s) : LockInv keys t := by
  obtain ⟨h1, h2⟩ := hinv
  cases hst with
  | acquireOk i hp hfree =>
    have hfree' : ∀ k ∈ keys i, k ∉ s.held := hasCollision_eq_false.mp hfree
    constructor
    · intro j hj k hk
      have hj2 : Function.update s.phase i LockPhase.running j =
          LockPhase.running := hj
      show k ∈ addAll s.held (keys i)
      by_cases hji : j = i
      · have hk2 : k ∈ keys i := by rwa [hji] at hk
        exact mem_addAll.mpr (Or.inr hk2)
      · rw [Function.update_noteq hji] at hj2
        exact mem_addAll.mpr (Or.inl (h1 j hj2 k hk))
    · intro a b hab ha hb k hka
      have ha2 : Function.update s.phase i LockPhase.running a =
          LockPhase.running := ha
      have hb2 : Function.update s.phase i LockPhase.running b =
          LockPhase.running := hb
      by_cases hai : a = i
      · have hbi : b ≠ i := by
          intro hbie
          exact hab (hai.trans hbie.symm)
        rw [Function.update_noteq hbi] at hb2
        intro hkb
        have hka2 : k ∈ keys i := by rwa [hai] at hka
        exact hfree' k hka2 (h1 b hb2 k hkb)
      · rw [Function.update_noteq hai] at ha2
        by_cases hbi : b = i
        · intro hkb
          have hkb2 : k ∈ keys i := by rwa [hbi] at hkb
          exact hfree' k hkb2 (h1 a ha2 k hka)
        · rw [Function.update_noteq hbi] at hb2
          exact h2 a b hab ha2 hb2 k hka
  | acquireFail i hp hcol =>
    constructor
    · intro j hj k hk
      have hj2 : Function.update s.phase i LockPhase.rejected j =
          LockPhase.running := hj
      have hji : j ≠ i := by
        intro h
        rw [h, Function.update_same] at hj2
        exact absurd hj2 (by decide)
      rw [Function.update_noteq hji] at hj2
      show k ∈ s.held
      exact h1 j hj2 k hk
    · intro a b hab ha hb k hka
      have ha2 : Function.update s.phase i LockPhase.rejected a =
          LockPhase.running := ha
      have hb2 : Function.update s.phase i LockPhase.rejected b =
          LockPhase.running := hb
      have hai : a ≠ i := by
        intro h
        rw [h, Function.update_same] at ha2
        exact absurd ha2 (by decide)
      have hbi : b ≠ i := by
        intro h
        rw [h, Function.update_same] at hb2
        exact absurd hb2 (by decide)
      rw [Function.update_noteq hai] at ha2
      rw [Function.update_noteq hbi] at hb2
      exact h2 a b hab ha2 hb2 k hka
  | release i hp =>
    constructor
    · intro j hj k hk
      have hj2 : Function.update s.phase i LockPhase.done j =
          LockPhase.running := hj
      have hji : j ≠ i := by
        intro h
        rw [h, Function.update_same] at hj2
        exact absurd hj2 (by decide)
      rw [Function.update_noteq hji] at hj2
      show k ∈ removeAll s.held (keys i)
      exact mem_removeAll.mpr ⟨h1 j hj2 k hk, h2 j i hji hj2 hp k hk⟩
    · intro a b hab ha hb k hka
      have ha2 : Function.update s.phase i LockPhase.done a =
          LockPhase.running := ha
      have hb2 : Function.update s.phase i LockPhase.done b =
          LockPhase.running := hb
      have hai : a ≠ i := by
        intro h
        rw [h, Function.update_same] at ha2
        exact absurd ha2 (by decide)
      have hbi : b ≠ i := by
        intro h
        rw [h, Function.update_same] at hb2
        exact absurd hb2 (by decide)
      rw [Function.update_noteq hai] at ha2
      rw [Function.update_noteq hbi] at hb2
      exact h2 a b hab ha2 hb2 k hka

theorem lockInv_reachable {keys : Nat → List String} {s : LockState}
    (h : Relation.ReflTransGen (LockStep keys) lockInit s) :
    LockInv keys s := by
  induction h with
  | refl =>
    constructor
    · intro i hi
      exact absurd hi (by simp [lockInit])
    · intro a b _ ha
      exact absurd ha (by simp [lockInit])
  | tail _ hbc ih => exact lockInv_step hbc ih

/-- C1: in every state reachable from the initial one (no key held, every
attempt before the lock), two distinct attempts that are both inside
their critical sections never share a dedup key — mutual exclusion per
key, because the acquire check-and-mark is one atomic step. -/
theorem claim_C1 (keys : Nat → List String) (s : LockState)
    (hreach : Relation.ReflTransGen (LockStep keys) lockInit s)
    (i j : Nat) (hij : i ≠ j)
    (hi : s.phase i = .running) (hj : s.phase j = .running) :
    ∀ k ∈ keys i, k ∉ keys j :=
  fun k hk => (lockInv_reachable hreach).2 i j hij hi hj k hk

/-- Concrete key assignment used to exhibit a reachable two-attempt state. -/
def keysW : Nat → List String :=
  fun n => if n = 0 then ["email:a@b.c"] else if n = 1 then ["phone:+15551234567"] else []

/-- State after attempt 0 acquires its keys. -/
def lockStateA : LockState :=
  ⟨addAll lockInit.held (keysW 0), Function.update lockInit.phase 0 .running⟩

/-- State after attempts 0 and 1 have both acquired their keys. -/
def lockStateB : LockState :=
  ⟨addAll lockStateA.held (keysW 1), Function.update lockStateA.phase 1 .running⟩

theorem claim_C1_witness : ("email:a@b.c" : String) ∉ keysW 1 :=
  claim_C1 keysW lockStateB
    (Relation.ReflTransGen.tail
      (Relation.ReflTransGen.tail (Relation.ReflTransGen.refl)
        (LockStep.acquireOk lockInit 0 rfl rfl))
      (LockStep.acquireOk lockStateA 1 rfl rfl))
    0 1 (by decide)
    (by
      show Function.update (Function.update lockInit.phase 0 .running) 1
        .running 0 = .running
      rw [Function.update_noteq (by decide), Function.update_same])
    (by
      show Function.update (Function.update lockInit.phase 0 .running) 1
        .running 1 = .running
      rw [Function.update_same])
    "email:a@b.c" (by decide)

theorem dispatchInv_step {α β : Type} {files : List α} {handler : α → β}
    {wc : Nat} {s t : DispatchState β}
    (hst : DispatchStep files handler s t)
    (hinv : DispatchInv files handler wc s) :
    DispatchInv files handler wc t := by
  obtain ⟨hrl, hwl, hcorr, hacc, hdone⟩ := hinv
  cases hst with
  | claim j hw =>
    have hjlt : j < s.workers.length := (List.getElem?_eq_some.mp hw).1
    refine ⟨hrl, ?_, hcorr, ?_, ?_⟩
    · show (s.workers.set j _).length = wc
      rw [List.length_set]
      exact hwl
    · intro i hi hilt
      have hilt2 : i < s.nextIndex + 1 := hilt
      by_cases hicur : i < s.nextIndex
      · rcases hacc i hi hicur with hres | ⟨j2, hj2⟩
        · exact Or.inl hres
        · refine Or.inr ⟨j2, ?_⟩
          have hj2j : j ≠ j2 := by
            intro h
            rw [← h, hw] at hj2
            exact WorkerPhase.noConfusion (Option.some.inj hj2)
          show (s.workers.set j _)[j2]? = _
          rw [List.getElem?_set_ne hj2j]
          exact hj2
      · have hieq : i = s.nextIndex := by omega
        subst hieq
        refine Or.inr ⟨j, ?_⟩
        show (s.workers.set j _)[j]? = _
        rw [List.getElem?_set_eq hjlt, if_pos hi]
    · intro j2 hj2
      by_cases hj2j : j2 = j
      · subst hj2j
        rw [List.getElem?_set_eq hjlt] at hj2
        have hval := Option.some.inj hj2
        by_cases hc : s.nextIndex < files.length
        · rw [if_pos hc] at hval
          exact WorkerPhase.noConfusion hval
        · show files.length < s.nextIndex + 1
          omega
      · rw [List.getElem?_set_ne (fun h => hj2j h.symm)] at hj2
        have hlt := hdone j2 hj2
        show files.length < s.nextIndex + 1
        omega
  | finish j i a hw hf =>
    have hjlt : j < s.workers.length := (List.getElem?_eq_some.mp hw).1
    have hilt : i < files.length := (List.getElem?_eq_some.mp hf).1
    have hireslt : i < s.results.length := by
      rw [hrl]
      exact hilt
    refine ⟨?_, ?_, ?_, ?_, ?_⟩
    · show (s.results.set i _).length = files.length
      rw [List.length_set]
      exact hrl
    · show (s.workers.set j _).length = wc
      rw [List.length_set]
      exact hwl
    · intro i2 b hb
      by_cases hii : i = i2
      · subst hii
        rw [List.getElem?_set_eq hireslt] at hb
        have hval := Option.some.inj (Option.some.inj hb)
        exact ⟨a, hf, hval.symm⟩
      · rw [List.getElem?_set_ne hii] at hb
        exact hcorr i2 b hb
    · intro i2 hi2 hlt
      by_cases hii : i = i2
      · subst hii
        refine Or.inl ?_
        rw [List.getElem?_set_eq hireslt]
        intro h
        exact Option.noConfusion (Option.some.inj h)
      · rcases hacc i2 hi2 hlt with hres | ⟨j2, hj2⟩
        · refine Or.inl ?_
          rw [List.getElem?_set_ne hii]
          exact hres
        · refine Or.inr ⟨j2, ?_⟩
          have hj2j : j ≠ j2 := by
            intro h
            rw [← h, hw] at hj2
            have hval := Option.some.inj hj2
            injection hval with hval2
            exact hii hval2
          rw [List.getElem?_set_ne hj2j]
          exact hj2
    · intro j2 hj2
      by_cases hj2j : j2 = j
      · subst hj2j
        rw [List.getElem?_set_eq hjlt] at hj2
        exact WorkerPhase.noConfusion (Option.some.inj hj2)
      · rw [List.getElem?_set_ne (fun h => hj2j h.symm)] at hj2
        exact hdone j2 hj2

theorem dispatchInv_reachable {α β : Type} {files : List α} {handler : α → β}
    {concurrency : Nat} {s : DispatchState β}
    (h : Relation.ReflTransGen (DispatchStep files handler)
      (dispatchInit files.length (workerCount concurrency files.length)) s) :
    DispatchInv files handler (workerCount concurrency files.length) s := by
  induction h with
  | refl =>
    refine ⟨List.length_replicate .., List.length_replicate .., ?_, ?_, ?_⟩
    · intro i b hb
      have hb2 : (List.replicate files.length (none : Option β))[i]? =
          some (some b) := hb
      rw [List.getElem?_replicate] at hb2
      by_cases hc : i < files.length
      · rw [if_pos hc] at hb2
        exact Option.noConfusion (Option.some.inj hb2)
      · rw [if_neg hc] at hb2
        exact Option.noConfusion hb2
    · intro i _ hlt
      have hlt2 : i < 0 := hlt
      exact absurd hlt2 (Nat.not_lt_zero i)
    · intro j hj
      have hj2 : (List.replicate (workerCount concurrency files.length)
          WorkerPhase.idle)[j]? = some WorkerPhase.done := hj
      rw [List.getElem?_replicate] at hj2
      by_cases hc : j < workerCount concurrency files.length
      · rw [if_pos hc] at hj2
        exact WorkerPhase.noConfusion (Option.some.inj hj2)
      · rw [if_neg hc] at hj2
        exact Option.noConfusion hj2
  | tail _ hbc ih => exact dispatchInv_step hbc ih

/-- C4: for every file list, concurrency value, and total per-file
handler, any completed run of `processFilesWithConcurrency` (a reachable
state in which every worker has returned) holds exactly `N` outcomes with
the `i`-th equal to the handler's result on the `i`-th file — one file's
outcome never prevents the others from being processed — and the worker
count is `max 1 (min concurrency N)`, i.e. clamped to at least 1 and (for
a nonempty batch) at most `N`. -/
theorem claim_C4 {α β : Type} (files : List α) (concurrency : Nat)
    (handler : α → β) (s : DispatchState β)
    (hreach : Relation.ReflTransGen (DispatchStep files handler)
      (dispatchInit files.length (workerCount concurrency files.length)) s)
    (hdone : allWorkersDone s) :
    s.results = files.map (fun a => some (handler a)) ∧
    s.results.length = files.length ∧
    1 ≤ workerCount concurrency files.length ∧
    (1 ≤ files.length → workerCount concurrency files.length ≤ files.length) ∧
    workerCount concurrency files.length = max 1 (min concurrency files.length) := by
  obtain ⟨hrl, hwl, hcorr, hacc, hdonei⟩ := dispatchInv_reachable hreach
  have hwc1 : 1 ≤ workerCount concurrency files.length :=
    Nat.le_max_left 1 _
  have hall : files.length < s.nextIndex := by
    have h0 : (0 : Nat) < s.workers.length := by
      rw [hwl]
      exact hwc1
    obtain ⟨w, hw⟩ : ∃ w, s.workers[0]? = some w :=
      ⟨s.workers[0], List.getElem?_eq_getElem h0⟩
    have hwdone := hdone 0 w hw
    subst hwdone
    exact hdonei 0 hw
  refine ⟨?_, hrl, hwc1, ?_, rfl⟩
  · apply List.ext_getElem?
    intro i
    rw [List.getElem?_map]
    by_cases hi : i < files.length
    · have hires : i < s.results.length := by
        rw [hrl]
        exact hi
      obtain ⟨oi, hoi⟩ : ∃ oi, s.results[i]? = some oi :=
        ⟨s.results[i], List.getElem?_eq_getElem hires⟩
      rcases hacc i hi (by omega) with hres | ⟨j2, hj2⟩
      · cases oi with
        | none => exact absurd hoi hres
        | some b =>
          obtain ⟨a, ha, hb⟩ := hcorr i b hoi
          rw [hoi, ha]
          subst hb
          rfl
      · have := hdone j2 _ hj2
        exact WorkerPhase.noConfusion this
    · have h1 : s.results[i]? = none := by
        rw [List.getElem?_eq_none_iff]
        omega
      have h2 : files[i]? = none := by
        rw [List.getElem?_eq_none_iff]
        omega
      rw [h1, h2]
      rfl
  · intro h1
    show max 1 (min concurrency files.length) ≤ files.length
    omega

theorem claim_C4_witness :
    (⟨3, [some 11, some 21], [WorkerPhase.done]⟩ : DispatchState Nat).results =
      [10, 20].map (fun a => some (Nat.succ a)) :=
  (claim_C4 [10, 20] 1 Nat.succ ⟨3, [some 11, some 21], [WorkerPhase.done]⟩
    (Relation.ReflTransGen.tail
      (Relation.ReflTransGen.tail
        (Relation.ReflTransGen.tail
          (Relation.ReflTransGen.tail
            (Relation.ReflTransGen.tail Relation.ReflTransGen.refl
              (DispatchStep.claim ⟨0, [none, none], [WorkerPhase.idle]⟩ 0 rfl))
            (DispatchStep.finish ⟨1, [none, none], [WorkerPhase.working 0]⟩
              0 0 10 rfl rfl))
          (DispatchStep.claim ⟨1, [some 11, none], [WorkerPhase.idle]⟩ 0 rfl))
        (DispatchStep.finish ⟨2, [some 11, none], [WorkerPhase.working 1]⟩
          0 1 20 rfl rfl))
      (DispatchStep.claim ⟨2, [some 11, some 21], [WorkerPhase.idle]⟩ 0 rfl))
    (by
      intro j w h
      cases j with
      | zero =>
        have h2 : some WorkerPhase.done = some w := h
        exact (Option.some.inj h2).symm
      | succ n =>
        have h2 : (none : Option WorkerPhase) = some w := h
        exact Option.noConfusion h2)).1
